import Mathlib
set_option maxRecDepth 10000

/-!
Verification of the db4s_daily_stats_gen statistics generator.

The development shallowly embeds the aggregation and upsert core of
`src/main.go` together with the PostgreSQL semantics of the SQL statements
it issues (schema: `src/schema/db4s_stats-schema.sql`).

Modelling conventions:
  * The log store `download_log` is a list of rows; a query is a filter
    or count over that list, preserving row order.
  * A rollup table is a list of rows in insertion order.  A row is a pair
    of its composite key `(stats_date, category)` and its integer count
    column, mirroring the column layout of `db4s_users_daily`
    (`stats_date`, `db4s_release`, `unique_ips`) and `db4s_downloads_daily`
    (`stats_date`, `db4s_download`, `num_downloads`).  Dates are modelled
    as integers (timestamps); the save functions only compare them for
    equality.
  * `INSERT .. ON CONFLICT (stats_date, cat) DO UPDATE SET count = v`
    updates the conflicting row when a row with an equal, non-NULL key
    exists and appends a fresh row otherwise.  PostgreSQL treats NULL as
    distinct from NULL in the unique indexes that arbitrate these
    conflicts (the schema declares plain unique indexes, NULLS DISTINCT),
    so an insert whose category is NULL never conflicts and always
    appends; that case is modelled separately where it can arise.
  * The `db4s_release` column of the users tables is nullable and its
    foreign key into `db4s_release_info` is MATCH SIMPLE with
    ON DELETE SET NULL, so inserting a NULL release reference succeeds;
    such a statement raises no error in PostgreSQL.
  * The md5 hash used as the deduplication key is kept abstract: the
    definitions are parameterised over an arbitrary key function
    `hash : String → H`, which is all the counting logic depends on.
    `testHash` is a concrete instantiation used by closed instances.
  * Database connectivity faults (a failing Query or Exec call) are
    external events, not data-dependent behaviour; where a claim is about
    the reaction of the Go code to what Exec reports, the model takes the
    reported values as explicit inputs (`saveStatsRun`).
-/

namespace DB4S

/-! ## Rollup table model (Upserter state) -/

/-- A rollup table: rows in insertion order, each a `(key, count)` pair.
`K` instantiates to `(stats_date, category)` composite keys. -/
abbrev Table (K : Type) := List (K × Int)

variable {K : Type} [DecidableEq K]

/-- Does the table contain a row with key `k`?  This is the conflict test
performed by the unique index backing `ON CONFLICT (stats_date, category)`. -/
def hasKey (t : Table K) (k : K) : Bool :=
  t.any (fun r => r.1 = k)

/-- One `INSERT .. VALUES (k, v) ON CONFLICT (key) DO UPDATE SET count = v`
with a non-NULL key: overwrite the count of the conflicting row when one
exists, append a fresh row otherwise.  (The `DO UPDATE .. WHERE` clauses in
the source restate the conflicting key and are always satisfied by the
conflicting row.) -/
def upsert (t : Table K) (k : K) (v : Int) : Table K :=
  if hasKey t k then
    t.map (fun r => if r.1 = k then (r.1, v) else r)
  else
    t ++ [(k, v)]

/-- Run a list of upserts left to right. -/
def applyWrites (t : Table K) (ws : List (K × Int)) : Table K :=
  ws.foldl (fun acc w => upsert acc w.1 w.2) t

/-- Keys of the rows of a table, in row order. -/
def tkeys (t : Table K) : List K :=
  t.map Prod.fst

/-- The pure overwrite a single write performs on a single row. -/
def owRow (w : K × Int) (r : K × Int) : K × Int :=
  if r.1 = w.1 then (r.1, w.2) else r

/-- Replaying a write list on a single row. -/
def rowFinal (ws : List (K × Int)) (r : K × Int) : K × Int :=
  ws.foldl (fun r w => owRow w r) r

/-- The value assigned to key `k` by the last write to `k` in `ws`, if any. -/
def lastVal (ws : List (K × Int)) (k : K) : Option Int :=
  match ws with
  | [] => none
  | w :: rest =>
    match lastVal rest k with
    | some x => some x
    | none => if w.1 = k then some w.2 else none

/-! ## Save functions (Upserter)

`saveDailyUsersStats` and `saveDailyDownloadsStats` are embedded from the
Go functions of the same names.  The weekly and monthly variants
(`saveWeeklyUsersStats`, `saveMonthlyUsersStats`, `saveWeeklyDownloadsStats`,
`saveMonthlyDownloadsStats`) have bodies identical to the daily ones except
for the name of the target table; over the table-state model they are the
same function, so theorems about the two functions below cover all six. -/

/-- List-level check that `needle` leads `hay`. -/
def listBegins : List Char → List Char → Bool
  | _, [] => true
  | [], _ :: _ => false
  | a :: hay, b :: needle => a = b && listBegins hay needle

/-- List-level substring containment. -/
def listHasSub : List Char → List Char → Bool
  | [], needle => needle.isEmpty
  | a :: hay, needle => listBegins (a :: hay) needle || listHasSub hay needle

/-- Leading-segment test on strings (Go strings.HasPrefix and the SQL
pattern `LIKE :marker needle percent:`), by character list so that closed
instances evaluate inside the kernel. -/
def strBegins (s pre : String) : Bool :=
  listBegins s.toList pre.toList

/-- Substring containment on strings (the SQL pattern bracketed by percent
signs), by character list. -/
def strContainsSub (hay needle : String) : Bool :=
  listHasSub hay.toList needle.toList

/-- The user-agent family marker: a version-check user-agent begins with
this string, and the save functions strip it before the reference-table
lookup. -/
def uaMarker : String := "sqlitebrowser "

/-- Strip the leading family marker from a user-agent string, as the save
functions do before the version lookup (Go strings.TrimPrefix semantics:
the string is returned unchanged when the marker does not lead it;
character-list arithmetic coincides with Go byte arithmetic on this ASCII
marker). -/
def stripUA (s : String) : String :=
  if strBegins s uaMarker then String.mk (s.toList.drop uaMarker.toList.length)
  else s

/-- The reference table `db4s_release_info`, as `(release_id, version_number)`
pairs; `version_number` carries a unique index. -/
abbrev RefTable := List (Int × String)

/-- The scalar subquery `SELECT release_id FROM db4s_release_info WHERE
version_number = $2`: the id of the row carrying the label, if any. -/
def lookupRelease (refT : RefTable) (ver : String) : Option Int :=
  (refT.find? (fun p => p.2 = ver)).map (fun p => p.1)

/-- Composite key of the users rollup tables: `(stats_date, db4s_release)`,
the release reference being nullable. -/
abbrev UsersKey := Int × Option Int

/-- The per-version write of the users save functions:
`INSERT INTO db4s_users_daily (stats_date, db4s_release, unique_ips)
SELECT $1, (SELECT release_id FROM ver), $3 ON CONFLICT .. DO UPDATE ..`.
When the label is registered this is a plain upsert on the non-NULL key.
When it is not, the scalar subquery yields NULL, the nullable column and
MATCH SIMPLE foreign key accept it, and `ON CONFLICT (stats_date,
db4s_release)` never fires on a NULL key (NULLS DISTINCT index), so the
statement appends a row with a NULL release reference.  Either way the
statement succeeds and reports one affected row. -/
def usersVersionWrite (refT : RefTable) (t : Table UsersKey)
    (date : Int) (ver : String) (n : Int) : Table UsersKey × Int :=
  match lookupRelease refT ver with
  | some rid => (upsert t (date, some rid) n, 1)
  | none => (t ++ [((date, none), n)], 1)

/-- `saveDailyUsersStats` (src/main.go): one aggregate write under the
reserved release id 1 ("Unique IPs"), then one per-version write per entry
of the per-user-agent map.  The map is modelled as an association list,
fixing one iteration order of the Go map. -/
def saveDailyUsersStats (refT : RefTable) (t : Table UsersKey)
    (date : Int) (count : Int) (perUA : List (String × Int)) : Table UsersKey :=
  perUA.foldl
    (fun acc p => (usersVersionWrite refT acc date (stripUA p.1) p.2).1)
    (upsert t (date, some 1) count)

/-- Composite key of the downloads rollup tables:
`(stats_date, db4s_download)`. -/
abbrev DownloadsKey := Int × Int

/-- `saveDailyDownloadsStats` (src/main.go): one aggregate write under the
reserved download id 0 ("Total downloads"), then one write per entry of the
per-version map; every key is a literal integer, so every write is a plain
upsert. -/
def saveDailyDownloadsStats (t : Table DownloadsKey) (date : Int)
    (count : Int) (perVersion : List (Int × Int)) : Table DownloadsKey :=
  perVersion.foldl
    (fun acc p => upsert acc (date, p.1) p.2)
    (upsert t (date, 0) count)

/-- The write list a users save issues, as upsert keys: the aggregate key
`(date, some 1)` followed by the per-version keys resolved through the
reference table. -/
def usersWriteList (refT : RefTable) (date : Int) (count : Int)
    (perUA : List (String × Int)) : List (UsersKey × Int) :=
  ((date, some 1), count) ::
    perUA.map (fun p => ((date, lookupRelease refT (stripUA p.1)), p.2))

/-! ## Reaction of the save functions to reported row counts (C9)

The save functions examine the row count each Exec reports.  The
storage layer is an external collaborator, so the reaction is defined for
every reportable value; this model takes the reported outcomes as inputs.
All six save functions share this control flow (src/main.go lines
1131-1138 and 1157-1164 for `saveDailyUsersStats`): the aggregate write
logs a warning when the count differs from 1, each per-category write logs
a warning only when the count exceeds 1, a failing Exec aborts the
function with its error, and no row-count anomaly produces an error. -/

/-- One reported Exec outcome: an error, or the affected row count. -/
abbrev ExecResult := Except String Int

/-- The per-category write loop: on an Exec error the function returns it
immediately; otherwise a warning is counted exactly when the reported row
count exceeds 1 (`if numRows > 1`), and the loop continues. -/
def catLoop : List ExecResult → Nat → Nat × Option String
  | [], warns => (warns, none)
  | .error e :: _, warns => (warns, some e)
  | .ok n :: rest, warns => catLoop rest (if 1 < n then warns + 1 else warns)

/-- A save function run over reported Exec outcomes: the aggregate write
first (warning exactly when its reported row count differs from 1,
`if numRows != 1`), then the per-category loop; the returned pair is the
number of warnings logged and the error returned, if any. -/
def saveStatsRun (agg : ExecResult) (cats : List ExecResult) :
    Nat × Option String :=
  match agg with
  | .error e => (0, some e)
  | .ok n => catLoop cats (if n ≠ 1 then 1 else 0)

/-! ## Log rows and the user-stats aggregation (getIPs) -/

/-- One row of the `download_log` table, restricted to the columns the
program reads.  A nullable text column is an `Option String`
(`none` = NULL, matching pgtype.Text with Valid = false). -/
structure LogRow where
  request : String
  http_user_agent : Option String
  client_ipv4 : Option String
  client_ipv6 : Option String
  client_ip_strange : Option String
  request_time : Int
  status : Int
deriving DecidableEq

/-- The test the Go code applies to each IP column before using it:
`X.String != "" && X.Valid`, i.e. non-NULL and non-empty. -/
def usableText (o : Option String) : Bool :=
  match o with
  | some s => decide (s ≠ "")
  | none => false

/-- The field whose text feeds the md5 client-identity hash, per the
priority chain of `getIPs` (src/main.go lines 1039-1048): strange, then
IPv6, then IPv4, each tried with the non-NULL non-empty test; `none` when
the chain falls through (the case the code treats as fatal). -/
def rowIPField (r : LogRow) : Option String :=
  if usableText r.client_ip_strange then r.client_ip_strange
  else if usableText r.client_ipv6 then r.client_ipv6
  else if usableText r.client_ipv4 then r.client_ipv4
  else none

/-- The user-agent string under which a row is grouped: `userAgent.String`,
the empty string when the column is NULL. -/
def uaOf (r : LogRow) : String :=
  r.http_user_agent.getD ""

/-- The WHERE clause of the `getIPs` query (src/main.go lines 1011-1018):
`request = :currentrelease:`, a user-agent that is non-NULL (SQL LIKE on
NULL selects nothing), begins with the family marker and does not contain
the AppEngine crawler marker, `request_time > $1 AND request_time < $2`
(both comparisons strict), and `status = 200`. -/
def selectedIPRow (startT endT : Int) (r : LogRow) : Bool :=
  decide (r.request = "/currentrelease") &&
  (match r.http_user_agent with
   | some ua => strBegins ua uaMarker && !(strContainsSub ua "AppEngine")
   | none => false) &&
  decide (startT < r.request_time) &&
  decide (r.request_time < endT) &&
  decide (r.status = 200)

/-- Bump a counter map entry: the Go `m[k]++` on a `map[K]int`. -/
def bump {H : Type} [DecidableEq H] (m : List (H × Nat)) (k : H) :
    List (H × Nat) :=
  if m.any (fun e => e.1 = k) then
    m.map (fun e => if e.1 = k then (e.1, e.2 + 1) else e)
  else
    m ++ [(k, 1)]

/-- Bump the per-user-agent nested map: fetch (or create empty) the inner
map for `ua`, then bump the identity key in it. -/
def bumpUA {H : Type} [DecidableEq H] (per : List (String × List (H × Nat)))
    (ua : String) (k : H) : List (String × List (H × Nat)) :=
  if per.any (fun e => e.1 = ua) then
    per.map (fun e => if e.1 = ua then (e.1, bump e.2 k) else e)
  else
    per ++ [(ua, bump ([] : List (H × Nat)) k)]

/-- The row loop of `getIPs`: for each result row compute the identity key
(hash of the selected IP field), abort fatally when no field is usable,
otherwise bump the overall counter map and the per-user-agent map. -/
def ipLoop {H : Type} [DecidableEq H] (hash : String → H) :
    List LogRow → List (H × Nat) → List (String × List (H × Nat)) →
    Except String (List (H × Nat) × List (String × List (H × Nat)))
  | [], uniq, per => .ok (uniq, per)
  | r :: rest, uniq, per =>
    match rowIPField r with
    | none => .error "no non-NULL client IP field for one of the rows"
    | some s => ipLoop hash rest (bump uniq (hash s)) (bumpUA per (uaOf r) (hash s))

/-- `getIPs` (src/main.go): run the selection query, process the rows, and
return the number of distinct identity keys overall together with the
number of distinct identity keys per user-agent string (the sizes of the
accumulated maps). -/
def getIPs {H : Type} [DecidableEq H] (hash : String → H) (log : List LogRow)
    (startT endT : Int) : Except String (Int × List (String × Int)) :=
  match ipLoop hash (log.filter (selectedIPRow startT endT)) [] [] with
  | .error e => .error e
  | .ok (uniq, per) =>
    .ok ((uniq.length : Int), per.map (fun e => (e.1, (e.2.length : Int))))

/-- The daily-users loop body of `main` (src/main.go lines 169-176): run
`getIPs` for the bucket and, only when it returns, save its result; a
fatal aggregation error aborts before any save. -/
def dailyUsersStep {H : Type} [DecidableEq H] (hash : String → H)
    (refT : RefTable) (t : Table UsersKey) (log : List LogRow)
    (startT endT : Int) : Except String (Table UsersKey) :=
  match getIPs hash log startT endT with
  | .error e => .error e
  | .ok (numIPs, perUA) => .ok (saveDailyUsersStats refT t startT numIPs perUA)

/-- Identity keys of a row list, in order, skipping rows with no usable
field. -/
def rowHashes {H : Type} (hash : String → H) (rows : List LogRow) : List H :=
  rows.filterMap (fun r => (rowIPField r).map hash)

/-- One step of the per-user-agent accumulation of `ipLoop`, as a fold
function (proof-side view of the loop body). -/
def uaStep {H : Type} [DecidableEq H] (hash : String → H)
    (acc : List (String × List (H × Nat))) (r : LogRow) :
    List (String × List (H × Nat)) :=
  bumpUA acc (uaOf r) (hash ((rowIPField r).getD ""))

/-- Concrete identity-key function used to instantiate the abstract hash
parameter in closed instances. -/
def testHash (s : String) : String := s

/-! ## The downloads aggregation (getDownloads) -/

/-- The time/status part of every download-count WHERE clause:
`request_time > $1 AND request_time < $2 AND status = 200`. -/
def dlWindow (startT endT : Int) (r : LogRow) : Bool :=
  decide (startT < r.request_time) &&
  decide (r.request_time < endT) &&
  decide (r.status = 200)

/-- The request paths of the total-downloads query of `getDownloads`
(src/main.go lines 402-449), in source order: the count is over rows whose
request equals any of these. -/
def totalDLRequestPaths : List String :=
  [ "/DB.Browser.for.SQLite-3.10.1.dmg"
  , "/DB.Browser.for.SQLite-3.10.1-win32.exe"
  , "/DB.Browser.for.SQLite-3.10.1-win64.exe"
  , "/SQLiteDatabaseBrowserPortable_3.10.1_English.paf.exe"
  , "/DB.Browser.for.SQLite-3.11.0-win32.msi"
  , "/DB.Browser.for.SQLite-3.11.0-win32.zip"
  , "/DB.Browser.for.SQLite-3.11.0-win64.msi"
  , "/DB.Browser.for.SQLite-3.11.0-win64.zip"
  , "/DB.Browser.for.SQLite-3.11.0.dmg"
  , "/DB.Browser.for.SQLite-3.11.1-win32.msi"
  , "/DB.Browser.for.SQLite-3.11.1-win32.zip"
  , "/DB.Browser.for.SQLite-3.11.1-win64.msi"
  , "/DB.Browser.for.SQLite-3.11.1-win64.zip"
  , "/DB.Browser.for.SQLite-3.11.1.dmg"
  , "/DB.Browser.for.SQLite-3.11.1v2.dmg"
  , "/DB.Browser.for.SQLite-3.11.2-win32.msi"
  , "/DB.Browser.for.SQLite-3.11.2-win32.zip"
  , "/DB.Browser.for.SQLite-3.11.2-win64.msi"
  , "/DB.Browser.for.SQLite-3.11.2-win64.zip"
  , "/DB.Browser.for.SQLite-3.11.2.dmg"
  , "/SQLiteDatabaseBrowserPortable_3.11.2_English.paf.exe"
  , "/SQLiteDatabaseBrowserPortable_3.11.2_Rev_2_English.paf.exe"
  , "/DB.Browser.for.SQLite-3.12.0-win32.msi"
  , "/DB.Browser.for.SQLite-3.12.0-win32.zip"
  , "/DB.Browser.for.SQLite-3.12.0-win64.msi"
  , "/DB.Browser.for.SQLite-3.12.0-win64.zip"
  , "/DB.Browser.for.SQLite-3.12.0.dmg"
  , "/SQLiteDatabaseBrowserPortable_3.12.0_English.paf.exe"
  , "/DB.Browser.for.SQLite-3.12.2-win32.msi"
  , "/DB.Browser.for.SQLite-3.12.2-win32.zip"
  , "/DB.Browser.for.SQLite-3.12.2-win64.msi"
  , "/DB.Browser.for.SQLite-3.12.2-win64.zip"
  , "/DB.Browser.for.SQLite-3.12.2.dmg"
  , "/DB.Browser.for.SQLite-arm64-3.12.2.dmg"
  , "/SQLiteDatabaseBrowserPortable_3.12.2_English.paf.exe"
  , "/DB.Browser.for.SQLite-v3.13.0.dmg"
  , "/DB.Browser.for.SQLite-v3.13.0-win32.msi"
  , "/DB.Browser.for.SQLite-v3.13.0-win32.zip"
  , "/DB.Browser.for.SQLite-v3.13.0-win64.msi"
  , "/DB.Browser.for.SQLite-v3.13.0-win64.zip"
  , "/DB.Browser.for.SQLite-v3.13.0-x86.64.AppImage"
  ]

/-- The per-artifact queries of `getDownloads` (src/main.go lines 456-999),
in execution order: artifact id as stored into `DLsPerVersion`, and the
request paths its count query matches (artifact 14, "3.11.1 macOS",
matches two historical filenames). -/
def downloadCatalog : List (Int × List String) :=
  [ (1, ["/DB.Browser.for.SQLite-3.10.1.dmg"])
  , (2, ["/DB.Browser.for.SQLite-3.10.1-win32.exe"])
  , (3, ["/DB.Browser.for.SQLite-3.10.1-win64.exe"])
  , (4, ["/SQLiteDatabaseBrowserPortable_3.10.1_English.paf.exe"])
  , (5, ["/DB.Browser.for.SQLite-3.11.0-win32.msi"])
  , (6, ["/DB.Browser.for.SQLite-3.11.0-win32.zip"])
  , (7, ["/DB.Browser.for.SQLite-3.11.0-win64.msi"])
  , (8, ["/DB.Browser.for.SQLite-3.11.0-win64.zip"])
  , (9, ["/DB.Browser.for.SQLite-3.11.0.dmg"])
  , (10, ["/DB.Browser.for.SQLite-3.11.1-win32.msi"])
  , (11, ["/DB.Browser.for.SQLite-3.11.1-win32.zip"])
  , (12, ["/DB.Browser.for.SQLite-3.11.1-win64.msi"])
  , (13, ["/DB.Browser.for.SQLite-3.11.1-win64.zip"])
  , (14, ["/DB.Browser.for.SQLite-3.11.1.dmg", "/DB.Browser.for.SQLite-3.11.1v2.dmg"])
  , (15, ["/DB.Browser.for.SQLite-3.11.2-win32.msi"])
  , (16, ["/DB.Browser.for.SQLite-3.11.2-win32.zip"])
  , (17, ["/DB.Browser.for.SQLite-3.11.2-win64.msi"])
  , (18, ["/DB.Browser.for.SQLite-3.11.2-win64.zip"])
  , (19, ["/DB.Browser.for.SQLite-3.11.2.dmg"])
  , (20, ["/SQLiteDatabaseBrowserPortable_3.11.2_English.paf.exe"])
  , (21, ["/SQLiteDatabaseBrowserPortable_3.11.2_Rev_2_English.paf.exe"])
  , (22, ["/DB.Browser.for.SQLite-3.12.0-win32.msi"])
  , (23, ["/DB.Browser.for.SQLite-3.12.0-win32.zip"])
  , (24, ["/DB.Browser.for.SQLite-3.12.0-win64.msi"])
  , (25, ["/DB.Browser.for.SQLite-3.12.0-win64.zip"])
  , (26, ["/DB.Browser.for.SQLite-3.12.0.dmg"])
  , (27, ["/SQLiteDatabaseBrowserPortable_3.12.0_English.paf.exe"])
  , (28, ["/DB.Browser.for.SQLite-3.12.2-win32.msi"])
  , (29, ["/DB.Browser.for.SQLite-3.12.2-win32.zip"])
  , (30, ["/DB.Browser.for.SQLite-3.12.2-win64.msi"])
  , (31, ["/DB.Browser.for.SQLite-3.12.2-win64.zip"])
  , (32, ["/DB.Browser.for.SQLite-3.12.2.dmg"])
  , (33, ["/SQLiteDatabaseBrowserPortable_3.12.2_English.paf.exe"])
  , (34, ["/DB.Browser.for.SQLite-arm64-3.12.2.dmg"])
  , (35, ["/DB.Browser.for.SQLite-v3.13.0.dmg"])
  , (36, ["/DB.Browser.for.SQLite-v3.13.0-win32.msi"])
  , (37, ["/DB.Browser.for.SQLite-v3.13.0-win32.zip"])
  , (38, ["/DB.Browser.for.SQLite-v3.13.0-win64.msi"])
  , (39, ["/DB.Browser.for.SQLite-v3.13.0-win64.zip"])
  , (40, ["/DB.Browser.for.SQLite-v3.13.0-x86.64.AppImage"])
  ]

/-- Count the rows of the window whose request equals a member of `paths`
(the shape of every count query in `getDownloads`). -/
def countDLs (log : List LogRow) (startT endT : Int) (paths : List String) : Int :=
  (log.countP (fun r => decide (r.request ∈ paths) && dlWindow startT endT r) : Int)

/-- `getDownloads` (src/main.go): the total over the full path list, and
the per-artifact map entries `DLsPerVersion[id]`, each computed by its own
count over the same window. -/
def getDownloads (log : List LogRow) (startT endT : Int) :
    Int × List (Int × Int) :=
  (countDLs log startT endT totalDLRequestPaths,
   downloadCatalog.map (fun e => (e.1, countDLs log startT endT e.2)))

/-! ## Calendar arithmetic and the monthly bucket iterator (C8) -/

/-- A normalized Go time.Date value, at day resolution. -/
structure GoDate where
  year : Int
  month : Int
  day : Int
deriving DecidableEq

/-- Days since 1970-01-01 of a (already normalized) proleptic Gregorian
date, the civil day-count algorithm Go time arithmetic is equivalent to. -/
def daysFromCivil (y m d : Int) : Int :=
  let y2 := if m ≤ 2 then y - 1 else y
  let era := Int.ediv y2 400
  let yoe := y2 - era * 400
  let mp := if 2 < m then m - 3 else m + 9
  let doy := Int.ediv (153 * mp + 2) 5 + d - 1
  let doe := yoe * 365 + Int.ediv yoe 4 - Int.ediv yoe 100 + doy
  era * 146097 + doe - 719468

/-- The normalized date of a day count since 1970-01-01 (inverse of
`daysFromCivil`). -/
def civilFromDays (z0 : Int) : GoDate :=
  let z := z0 + 719468
  let era := Int.ediv z 146097
  let doe := z - era * 146097
  let yoe := Int.ediv (doe - Int.ediv doe 1460 + Int.ediv doe 36524 - Int.ediv doe 146096) 365
  let y := yoe + era * 400
  let doy := doe - (365 * yoe + Int.ediv yoe 4 - Int.ediv yoe 100)
  let mp := Int.ediv (5 * doy + 2) 153
  let d := doy - Int.ediv (153 * mp + 2) 5 + 1
  let m := if mp < 10 then mp + 3 else mp - 9
  ⟨if m ≤ 2 then y + 1 else y, m, d⟩

/-- Go `time.Date(y, m, d, ...)` normalization: fold excess months into the
year (floor semantics, as the Go implementation computes), then resolve an
out-of-range day by day-count arithmetic from the first of the month. -/
def goDate (y m d : Int) : GoDate :=
  let yn := y + Int.ediv (m - 1) 12
  let mn := Int.emod (m - 1) 12 + 1
  civilFromDays (daysFromCivil yn mn 1 + (d - 1))

/-- Go `t.AddDate(years, months, days)`:
`time.Date(t.year + years, t.month + months, t.day + days, ...)`. -/
def goAddDate (t : GoDate) (years months days : Int) : GoDate :=
  goDate (t.year + years) (t.month + months) (t.day + days)

/-- The fixed epoch of the monthly reports when not in daily mode:
2018-08-01 (src/main.go lines 249 and 367). -/
def monthlyEpoch : GoDate := ⟨2018, 8, 1⟩

/-- Start date of the k-th monthly bucket: the epoch advanced k times by
`AddDate(0, 1, 0)`, exactly as the monthly loops advance `startDate`. -/
def monthlyStart : Nat → GoDate
  | 0 => monthlyEpoch
  | k + 1 => goAddDate (monthlyStart k) 0 1 0

/-- The k-th monthly bucket `(startDate, endDate)`: the loops set
`endDate = startDate.AddDate(0, 1, 0)`. -/
def monthlyBucket (k : Nat) : GoDate × GoDate :=
  (monthlyStart k, goAddDate (monthlyStart k) 0 1 0)

/-- Length of a bucket in days. -/
def spanDays (b : GoDate × GoDate) : Int :=
  daysFromCivil b.2.year b.2.month b.2.day - daysFromCivil b.1.year b.1.month b.1.day

/-- Written from the claim: the first day of the calendar month following
`d`'s month. -/
def firstOfNextMonth (d : GoDate) : GoDate :=
  if d.month = 12 then ⟨d.year + 1, 1, 1⟩ else ⟨d.year, d.month + 1, 1⟩

/-- Written from the claim: Gregorian leap years. -/
def isLeapYear (y : Int) : Bool :=
  (Int.emod y 4 = 0 && Int.emod y 100 ≠ 0) || Int.emod y 400 = 0

/-- Written from the claim: the calendar length of month `m` of year `y`
(28-31 days, February leap-year-sensitive). -/
def daysInMonth (y m : Int) : Int :=
  if m = 2 then (if isLeapYear y then 29 else 28)
  else if m = 4 ∨ m = 6 ∨ m = 9 ∨ m = 11 then 30
  else 31

/-! ## Spec-side definitions for the refinement claims -/

/-- Written from claim C2: the selection predicate with the time window
read as the half-open interval `[start, end)` (a row at exactly `start`
qualifies). -/
def specSelectedHalfOpenC2 (startT endT : Int) (r : LogRow) : Bool :=
  decide (r.request = "/currentrelease") &&
  (match r.http_user_agent with
   | some ua => strBegins ua uaMarker && !(strContainsSub ua "AppEngine")
   | none => false) &&
  decide (startT ≤ r.request_time) &&
  decide (r.request_time < endT) &&
  decide (r.status = 200)

/-- Written from the amended claim C2: the same predicate with the open
interval `(start, end)` on both ends. -/
def specSelectedOpenC2 (startT endT : Int) (r : LogRow) : Bool :=
  decide (r.request = "/currentrelease") &&
  (match r.http_user_agent with
   | some ua => strBegins ua uaMarker && !(strContainsSub ua "AppEngine")
   | none => false) &&
  decide (startT < r.request_time) &&
  decide (r.request_time < endT) &&
  decide (r.status = 200)

/-- Written from claim C6: the identity field as the highest-priority
NON-NULL IP-like field (emptiness not considered) in the order strange,
IPv6, IPv4. -/
def specIdentityFieldC6 (r : LogRow) : Option String :=
  match r.client_ip_strange with
  | some s => some s
  | none =>
    match r.client_ipv6 with
    | some s => some s
    | none => r.client_ipv4

/-- Written from the amended claim C6, lowest-priority tier: the IPv4
field when non-NULL and non-empty. -/
def amendedIdentityV4 (r : LogRow) : Option String :=
  match r.client_ipv4 with
  | some s => if s ≠ "" then some s else none
  | none => none

/-- Written from the amended claim C6, middle tier: the IPv6 field when
non-NULL and non-empty, the IPv4 tier otherwise. -/
def amendedIdentityV6 (r : LogRow) : Option String :=
  match r.client_ipv6 with
  | some s => if s ≠ "" then some s else amendedIdentityV4 r
  | none => amendedIdentityV4 r

/-- Written from the amended claim C6: the identity field as the
highest-priority non-NULL, NON-EMPTY IP-like field in the order strange,
IPv6, IPv4. -/
def amendedIdentityFieldC6 (r : LogRow) : Option String :=
  match r.client_ip_strange with
  | some s => if s ≠ "" then some s else amendedIdentityV6 r
  | none => amendedIdentityV6 r

/-! ## Concrete inputs for closed instances -/

/-- A fully qualifying version-check row at timestamp 1 from IPv4 client
1.2.3.4, user-agent version 3.12.2. -/
def rowA : LogRow :=
  ⟨"/currentrelease", some "sqlitebrowser 3.12.2", some "1.2.3.4",
    none, none, 1, 200⟩

/-- A second hit of the same client and user-agent at timestamp 2. -/
def rowA2 : LogRow :=
  ⟨"/currentrelease", some "sqlitebrowser 3.12.2", some "1.2.3.4",
    none, none, 2, 200⟩

/-- A qualifying row from IPv6 client ::1, user-agent version 3.11.2. -/
def rowB : LogRow :=
  ⟨"/currentrelease", some "sqlitebrowser 3.11.2", none, some "::1",
    none, 3, 200⟩

/-- A row qualifying in every respect, timed exactly at the window start
(timestamp 0). -/
def rowAtStart : LogRow :=
  ⟨"/currentrelease", some "sqlitebrowser 3.12.2", some "1.2.3.4",
    none, none, 0, 200⟩

/-- A row with a non-NULL but empty strange field next to a populated IPv4
field. -/
def rowEmptyStrange : LogRow :=
  ⟨"/currentrelease", some "sqlitebrowser 3.12.2", some "1.2.3.4",
    none, some "", 1, 200⟩

/-- A qualifying row all three of whose IP fields are NULL. -/
def rowAllNull : LogRow :=
  ⟨"/currentrelease", some "sqlitebrowser 3.12.2", none, none, none, 1, 200⟩

/-- A qualifying row with a populated (non-empty) strange field next to a
populated IPv4 field. -/
def rowStrange : LogRow :=
  ⟨"/currentrelease", some "sqlitebrowser 3.12.2", some "1.2.3.4",
    none, some "10.0.0.oddball", 1, 200⟩

/-- The seed contents of `db4s_release_info` from the schema dump, as
`(release_id, version_number)` pairs. -/
def seedRefTable : RefTable :=
  [(3, "3.10.100"), (4, "3.10.200"), (5, "3.10.201"), (6, "3.10.202"),
   (2, "3.10.99"), (7, "3.11.99"), (1, "Unique IPs")]

/-! # Theorems -/

/-! ## Rollup table lemmas -/

theorem hasKey_iff_mem (t : Table K) (k : K) :
    hasKey t k = true ↔ k ∈ tkeys t := by
  simp [hasKey, tkeys, List.any_eq_true, List.mem_map]

theorem tkeys_upsert (t : Table K) (k : K) (v : Int) :
    tkeys (upsert t k v) = if hasKey t k then tkeys t else tkeys t ++ [k] := by
  by_cases h : hasKey t k
  · simp only [upsert, h, if_true, tkeys, List.map_map]
    refine List.map_congr_left ?_
    intro r _
    by_cases hrk : r.1 = k <;> simp [hrk]
  · simp [upsert, h, tkeys]

theorem mem_tkeys_upsert (t : Table K) (k k' : K) (v : Int) :
    k' ∈ tkeys (upsert t k v) ↔ k' ∈ tkeys t ∨ k' = k := by
  rw [tkeys_upsert]
  by_cases h : hasKey t k
  · simp only [h, if_true]
    constructor
    · intro hm
      exact Or.inl hm
    · rintro (hm | rfl)
      · exact hm
      · exact (hasKey_iff_mem t k').mp h
  · simp [h]

theorem mem_tkeys_applyWrites (t : Table K) (ws : List (K × Int)) (k : K) :
    k ∈ tkeys (applyWrites t ws) ↔ k ∈ tkeys t ∨ k ∈ ws.map Prod.fst := by
  induction ws generalizing t with
  | nil => simp [applyWrites]
  | cons w rest ih =>
    simp only [applyWrites, List.foldl_cons] at *
    rw [ih (upsert t w.1 w.2), mem_tkeys_upsert]
    simp only [List.map_cons, List.mem_cons]
    tauto

/-- When its key is already present, an upsert is a pure row-wise map. -/
theorem upsert_of_hasKey (t : Table K) (k : K) (v : Int) (h : hasKey t k = true) :
    upsert t k v = t.map (owRow (k, v)) := by
  simp [upsert, h, owRow]

/-- When every key written is already present, applying the writes is a
composite of row-wise overwrites. -/
theorem applyWrites_of_keys_present (t : Table K) (ws : List (K × Int))
    (h : ∀ w ∈ ws, w.1 ∈ tkeys t) :
    applyWrites t ws = ws.foldl (fun acc w => acc.map (owRow w)) t := by
  induction ws generalizing t with
  | nil => simp [applyWrites]
  | cons w rest ih =>
    have hw : hasKey t w.1 = true :=
      (hasKey_iff_mem t w.1).mpr (h w (List.mem_cons_self w rest))
    simp only [applyWrites, List.foldl_cons]
    rw [← applyWrites, ih (upsert t w.1 w.2), upsert_of_hasKey t w.1 w.2 hw]
    intro w' hw'
    rw [mem_tkeys_upsert]
    exact Or.inl (h w' (List.mem_cons_of_mem w hw'))

theorem foldl_map_eq_map_rowFinal (t : Table K) (ws : List (K × Int)) :
    ws.foldl (fun acc w => acc.map (owRow w)) t = t.map (rowFinal ws) := by
  induction ws generalizing t with
  | nil =>
    simp only [List.foldl_nil]
    exact ((List.map_congr_left (fun r _ => rfl)).trans (List.map_id t)).symm
  | cons w rest ih =>
    simp only [List.foldl_cons]
    rw [ih (t.map (owRow w)), List.map_map]
    rfl

theorem rowFinal_eq (ws : List (K × Int)) (k : K) (v : Int) :
    rowFinal ws (k, v) = (k, (lastVal ws k).getD v) := by
  induction ws generalizing v with
  | nil => rfl
  | cons w rest ih =>
    have hstep : owRow w (k, v) = (k, if w.1 = k then w.2 else v) := by
      by_cases h : w.1 = k
      · subst h; simp [owRow]
      · have h' : ¬ k = w.1 := fun hk => h hk.symm
        simp [owRow, h, h']
    simp only [rowFinal, List.foldl_cons] at *
    rw [hstep, ih]
    simp only [lastVal]
    cases hlv : lastVal rest k with
    | some x => simp
    | none => by_cases h : w.1 = k <;> simp [h]

theorem lastVal_append_single (ws : List (K × Int)) (w : K × Int) (k : K) :
    lastVal (ws ++ [w]) k = if w.1 = k then some w.2 else lastVal ws k := by
  induction ws with
  | nil => simp [lastVal]
  | cons w' rest ih =>
    have hcons : lastVal ((w' :: rest) ++ [w]) k =
        match lastVal (rest ++ [w]) k with
        | some x => some x
        | none => if w'.1 = k then some w'.2 else none := rfl
    rw [hcons, ih]
    by_cases h : w.1 = k <;>
      cases hlv : lastVal rest k <;>
      simp [lastVal, hlv, h]

/-- Every row of the result of `applyWrites` already stores the value of the
last write to its key (when its key was written at all). -/
theorem applyWrites_row_lastVal (t : Table K) (ws : List (K × Int)) :
    ∀ r ∈ applyWrites t ws, ∀ x, lastVal ws r.1 = some x → r.2 = x := by
  induction ws using List.reverseRecOn generalizing t with
  | nil =>
    intro r _ x hx
    simp [lastVal] at hx
  | append_singleton rest w ih =>
    intro r hr x hx
    rw [lastVal_append_single] at hx
    have hsplit : applyWrites t (rest ++ [w]) =
        upsert (applyWrites t rest) w.1 w.2 := by
      simp [applyWrites, List.foldl_append]
    rw [hsplit] at hr
    by_cases hcase : hasKey (applyWrites t rest) w.1
    · rw [upsert_of_hasKey _ _ _ hcase] at hr
      rcases List.mem_map.mp hr with ⟨r0, hr0, hmap⟩
      by_cases hk : r0.1 = w.1
      · have : r = (r0.1, w.2) := by rw [← hmap]; simp [owRow, hk]
        subst this
        simp only [hk] at hx ⊢
        simp at hx
        omega
      · have : r = r0 := by rw [← hmap]; simp [owRow, hk]
        subst this
        rw [if_neg (fun h => hk h.symm)] at hx
        exact ih t r hr0 x hx
    · rw [upsert, if_neg hcase] at hr
      rcases List.mem_append.mp hr with hr0 | hr0
      · have hk : r.1 ≠ w.1 := by
          intro h
          exact hcase ((hasKey_iff_mem _ _).mpr (h ▸ List.mem_map_of_mem Prod.fst hr0))
        rw [if_neg (fun h => hk h.symm)] at hx
        exact ih t r hr0 x hx
      · simp only [List.mem_singleton] at hr0
        subst hr0
        simp at hx
        omega

/-- Replaying the writes on the final table fixes every row. -/
theorem rowFinal_fixed (t : Table K) (ws : List (K × Int)) :
    ∀ r ∈ applyWrites t ws, rowFinal ws r = r := by
  intro r hr
  have h := rowFinal_eq ws r.1 r.2
  cases hlv : lastVal ws r.1 with
  | none => simp only [hlv, Option.getD_none] at h; simpa using h
  | some x =>
    have hx := applyWrites_row_lastVal t ws r hr x hlv
    simp only [hlv, Option.getD_some] at h
    rw [show ((r.1, r.2) : K × Int) = r from rfl] at h
    rw [h, ← hx]

/-- Idempotence of a write batch: replaying the same upsert sequence on its
own result changes nothing. -/
theorem applyWrites_idem (t : Table K) (ws : List (K × Int)) :
    applyWrites (applyWrites t ws) ws = applyWrites t ws := by
  have hpres : ∀ w ∈ ws, w.1 ∈ tkeys (applyWrites t ws) := by
    intro w hw
    rw [mem_tkeys_applyWrites]
    exact Or.inr (List.mem_map_of_mem Prod.fst hw)
  rw [applyWrites_of_keys_present _ _ hpres, foldl_map_eq_map_rowFinal]
  calc (applyWrites t ws).map (rowFinal ws)
      = (applyWrites t ws).map id := by
        exact List.map_congr_left (rowFinal_fixed t ws)
    _ = applyWrites t ws := List.map_id _

theorem applyWrites_cons (t : Table K) (w : K × Int) (ws : List (K × Int)) :
    applyWrites t (w :: ws) = applyWrites (upsert t w.1 w.2) ws := rfl

/-- A row whose key differs from the written key survives an upsert
unchanged. -/
theorem mem_upsert_preserved (t : Table K) (k : K) (v : Int) (x : K × Int)
    (hne : x.1 ≠ k) (hmem : x ∈ t) : x ∈ upsert t k v := by
  unfold upsert
  by_cases hk : hasKey t k
  · rw [if_pos hk]
    exact List.mem_map.mpr ⟨x, hmem, by rw [if_neg hne]⟩
  · rw [if_neg hk]
    exact List.mem_append.mpr (Or.inl hmem)

/-! ## Save-function lemmas and C1, C3 -/

/-- With every label registered, the per-version loop of the users save is
a sequence of plain upserts on non-NULL keys. -/
theorem usersFold_eq_applyWrites (refT : RefTable) (date : Int)
    (perUA : List (String × Int)) (t0 : Table UsersKey)
    (h : ∀ p ∈ perUA, (lookupRelease refT (stripUA p.1)).isSome = true) :
    perUA.foldl
        (fun acc p => (usersVersionWrite refT acc date (stripUA p.1) p.2).1) t0
      = applyWrites t0
          (perUA.map (fun p => ((date, lookupRelease refT (stripUA p.1)), p.2))) := by
  induction perUA generalizing t0 with
  | nil => simp [applyWrites]
  | cons p rest ih =>
    obtain ⟨rid, hrid⟩ :=
      Option.isSome_iff_exists.mp (h p (List.mem_cons_self p rest))
    have hw : (usersVersionWrite refT t0 date (stripUA p.1) p.2).1
        = upsert t0 (date, lookupRelease refT (stripUA p.1)) p.2 := by
      simp [usersVersionWrite, hrid]
    rw [List.foldl_cons, List.map_cons, applyWrites_cons, hw]
    exact ih (upsert t0 (date, lookupRelease refT (stripUA p.1)) p.2)
      (fun q hq => h q (List.mem_cons_of_mem p hq))

/-- With every label registered, a users save is exactly the application of
its write list. -/
theorem saveDailyUsersStats_eq_applyWrites (refT : RefTable)
    (t : Table UsersKey) (date count : Int) (perUA : List (String × Int))
    (h : ∀ p ∈ perUA, (lookupRelease refT (stripUA p.1)).isSome = true) :
    saveDailyUsersStats refT t date count perUA
      = applyWrites t (usersWriteList refT date count perUA) := by
  rw [usersWriteList, applyWrites_cons]
  exact usersFold_eq_applyWrites refT date perUA (upsert t (date, some 1) count) h

/-- A downloads save is exactly the application of its write list. -/
theorem saveDailyDownloadsStats_eq_applyWrites (t : Table DownloadsKey)
    (date count : Int) (perVersion : List (Int × Int)) :
    saveDailyDownloadsStats t date count perVersion
      = applyWrites t
          (((date, 0), count) :: perVersion.map (fun p => ((date, p.1), p.2))) := by
  rw [applyWrites_cons]
  simp only [saveDailyDownloadsStats, applyWrites, List.foldl_map]

/-- C1 (amended): running a save function twice with identical arguments
leaves the rollup table as after a single run, provided (for the users
saves) that every version label of the per-category map is registered in
the reference table at write time; the downloads saves are unconditionally
idempotent.  (The claim as frozen omits the registration proviso;
`c1_counterexample` shows it is needed.) -/
theorem c1_save_idempotent :
    (∀ (refT : RefTable) (t : Table UsersKey) (date count : Int)
        (perUA : List (String × Int)),
      (∀ p ∈ perUA, (lookupRelease refT (stripUA p.1)).isSome = true) →
      saveDailyUsersStats refT (saveDailyUsersStats refT t date count perUA)
          date count perUA
        = saveDailyUsersStats refT t date count perUA) ∧
    (∀ (t : Table DownloadsKey) (date count : Int)
        (perVersion : List (Int × Int)),
      saveDailyDownloadsStats (saveDailyDownloadsStats t date count perVersion)
          date count perVersion
        = saveDailyDownloadsStats t date count perVersion) := by
  constructor
  · intro refT t date count perUA h
    have h1 := saveDailyUsersStats_eq_applyWrites refT t date count perUA h
    have h2 := saveDailyUsersStats_eq_applyWrites refT
      (saveDailyUsersStats refT t date count perUA) date count perUA h
    rw [h2, h1]
    exact applyWrites_idem t (usersWriteList refT date count perUA)
  · intro t date count perVersion
    have h1 := saveDailyDownloadsStats_eq_applyWrites t date count perVersion
    have h2 := saveDailyDownloadsStats_eq_applyWrites
      (saveDailyDownloadsStats t date count perVersion) date count perVersion
    rw [h2, h1]
    exact applyWrites_idem t _

/-- Witness for C1: both idempotence statements at concrete inputs (the
label 3.10.99 is registered in the schema seed data under id 2). -/
theorem c1_save_idempotent_witness :
    saveDailyUsersStats seedRefTable
        (saveDailyUsersStats seedRefTable [] 0 7 [("sqlitebrowser 3.10.99", 4)])
        0 7 [("sqlitebrowser 3.10.99", 4)]
      = saveDailyUsersStats seedRefTable [] 0 7 [("sqlitebrowser 3.10.99", 4)] ∧
    saveDailyDownloadsStats (saveDailyDownloadsStats [] 0 9 [(1, 5)]) 0 9 [(1, 5)]
      = saveDailyDownloadsStats [] 0 9 [(1, 5)] :=
  ⟨c1_save_idempotent.1 seedRefTable [] 0 7 [("sqlitebrowser 3.10.99", 4)]
      (by decide),
   c1_save_idempotent.2 [] 0 9 [(1, 5)]⟩

/-- Counterexample to C1 as frozen: with the unregistered label 9.9.9, the
second run appends a second NULL-release row, so the final table differs
from that of a single run. -/
theorem c1_counterexample :
    saveDailyUsersStats seedRefTable
        (saveDailyUsersStats seedRefTable [] 0 7 [("sqlitebrowser 9.9.9", 5)])
        0 7 [("sqlitebrowser 9.9.9", 5)]
      ≠ saveDailyUsersStats seedRefTable [] 0 7 [("sqlitebrowser 9.9.9", 5)] := by
  decide

/-- NULL-release rows survive the remaining per-version writes of a users
save: later writes either upsert a non-NULL key or append. -/
theorem mem_usersFold_preserved (refT : RefTable) (date : Int)
    (rest : List (String × Int)) (acc : Table UsersKey) (x : UsersKey × Int)
    (hx : x.1.2 = none) (hmem : x ∈ acc) :
    x ∈ rest.foldl
        (fun acc p => (usersVersionWrite refT acc date (stripUA p.1) p.2).1) acc := by
  induction rest generalizing acc with
  | nil => exact hmem
  | cons q rs ih =>
    rw [List.foldl_cons]
    have hstep : x ∈ (usersVersionWrite refT acc date (stripUA q.1) q.2).1 := by
      unfold usersVersionWrite
      cases hlq : lookupRelease refT (stripUA q.1) with
      | some rid =>
        simp only [hlq]
        refine mem_upsert_preserved acc (date, some rid) q.2 x ?_ hmem
        intro hcontra
        rw [hcontra] at hx
        simp at hx
      | none =>
        simp only [hlq]
        exact List.mem_append.mpr (Or.inl hmem)
    exact ih _ hstep

/-- C3 (amended): when a version label of the per-category map has no row
in `db4s_release_info` at write time, the users save completes without any
error and the final table contains a row whose release reference is NULL,
carrying that label's count — the category is silently misfiled, not
failed loudly. -/
theorem c3_unregistered_label_silent (refT : RefTable) (t : Table UsersKey)
    (date count : Int) (perUA : List (String × Int)) (p : String × Int)
    (hp : p ∈ perUA) (hlook : lookupRelease refT (stripUA p.1) = none) :
    ((date, (none : Option Int)), p.2)
      ∈ saveDailyUsersStats refT t date count perUA := by
  obtain ⟨l1, l2, rfl⟩ := List.append_of_mem hp
  unfold saveDailyUsersStats
  rw [List.foldl_append, List.foldl_cons]
  apply mem_usersFold_preserved refT date l2 _ _ rfl
  unfold usersVersionWrite
  simp only [hlook]
  exact List.mem_append.mpr (Or.inr (List.mem_singleton.mpr rfl))

/-- Witness for C3 (amended): the unregistered label 9.9.9 produces a
NULL-release row carrying its count. -/
theorem c3_unregistered_label_silent_witness :
    ((0, (none : Option Int)), 5)
      ∈ saveDailyUsersStats seedRefTable [] 0 7 [("sqlitebrowser 9.9.9", 5)] :=
  c3_unregistered_label_silent seedRefTable [] 0 7
    [("sqlitebrowser 9.9.9", 5)] ("sqlitebrowser 9.9.9", 5)
    (by decide) (by decide)

/-- Counterexample to C3 as frozen: with the label 9.9.9 absent from the
reference table, the save completes normally (no error is possible for
this statement: the release column is nullable, its foreign key is MATCH
SIMPLE, and a NULL key never conflicts), writing the aggregate row and a
NULL-release row. -/
theorem c3_counterexample :
    saveDailyUsersStats seedRefTable [] 0 7 [("sqlitebrowser 9.9.9", 5)]
      = [((0, some 1), 7), ((0, none), 5)] := by
  decide

/-! ## Reaction to reported row counts: C9 -/

/-- The per-category loop over successful Exec reports: no error is
returned and one warning is counted per report strictly greater than 1. -/
theorem catLoop_all_ok (cats : List ExecResult) (w : Nat)
    (h : ∀ c ∈ cats, ∃ n, c = .ok n) :
    catLoop cats w
      = (w + cats.countP
            (fun c => match c with | .ok n => decide (1 < n) | .error _ => false),
         none) := by
  induction cats generalizing w with
  | nil => simp [catLoop]
  | cons c rest ih =>
    obtain ⟨n, rfl⟩ := h c (List.mem_cons_self c rest)
    rw [List.countP_cons]
    show catLoop rest (if 1 < n then w + 1 else w) = _
    rw [ih _ (fun c hc => h c (List.mem_cons_of_mem _ hc))]
    by_cases hn : 1 < n <;> simp [hn] <;> omega

/-- C9 (amended): when every Exec succeeds, a save-function run returns no
error whatever the reported row counts; the aggregate write contributes a
warning exactly when its reported count differs from 1, while each
per-category write contributes a warning only when its reported count
exceeds 1 — a per-category report of 0 affected rows passes without any
warning. -/
theorem c9_anomaly_reaction (aggN : Int) (cats : List ExecResult)
    (h : ∀ c ∈ cats, ∃ n, c = .ok n) :
    saveStatsRun (.ok aggN) cats
      = ((if aggN ≠ 1 then 1 else 0)
          + cats.countP
              (fun c => match c with | .ok n => decide (1 < n) | .error _ => false),
         none) := by
  rw [saveStatsRun]
  exact catLoop_all_ok cats _ h

/-- Witness for C9 (amended): a run whose aggregate write reports 3 rows
and whose two per-category writes report 0 and 2 rows returns no error and
exactly two warnings. -/
theorem c9_anomaly_reaction_witness :
    saveStatsRun (.ok 3) [.ok 0, .ok 2] = (2, none) :=
  c9_anomaly_reaction 3 [.ok 0, .ok 2]
    (by intro c hc; fin_cases hc <;> exact ⟨_, rfl⟩)

/-- Counterexample to C9 as frozen: a per-category write reporting 0
affected rows (with a normal aggregate write) produces no warning at all —
the claim requires the 0-row anomaly to be logged. -/
theorem c9_counterexample : saveStatsRun (.ok 1) [.ok 0] = (0, none) := by
  decide

/-! ## Download aggregation: C5 and C10 -/

/-- Counting over a concatenation of path lists splits into a sum when the
two lists share no path. -/
theorem countP_append_paths (log : List LogRow) (startT endT : Int)
    (ps qs : List String) (hdisj : ∀ s, s ∈ ps → s ∉ qs) :
    log.countP (fun r => decide (r.request ∈ ps ++ qs) && dlWindow startT endT r)
      = log.countP (fun r => decide (r.request ∈ ps) && dlWindow startT endT r)
        + log.countP (fun r => decide (r.request ∈ qs) && dlWindow startT endT r) := by
  induction log with
  | nil => simp
  | cons r rest ih =>
    simp only [List.countP_cons]
    rw [ih]
    by_cases hp : r.request ∈ ps
    · have hq : r.request ∉ qs := hdisj _ hp
      by_cases hw : dlWindow startT endT r <;>
        simp [List.mem_append, hp, hq, hw] <;> omega
    · by_cases hq : r.request ∈ qs <;>
        by_cases hw : dlWindow startT endT r <;>
        simp [List.mem_append, hp, hq, hw] <;> omega

/-- Over catalog entries whose joined path lists are free of duplicates,
the per-entry counts sum to the count over the joined paths. -/
theorem sum_countDLs (log : List LogRow) (startT endT : Int)
    (entries : List (Int × List String))
    (hnd : ((entries.map Prod.snd).flatten).Nodup) :
    ((entries.map (fun e => countDLs log startT endT e.2)).sum)
      = countDLs log startT endT ((entries.map Prod.snd).flatten) := by
  induction entries with
  | nil => simp [countDLs]
  | cons e rest ih =>
    simp only [List.map_cons, List.flatten_cons] at hnd ⊢
    rw [List.sum_cons]
    rw [List.nodup_append] at hnd
    obtain ⟨hnd1, hnd2, hdisj⟩ := hnd
    rw [ih hnd2]
    unfold countDLs
    rw [countP_append_paths log startT endT e.2 ((rest.map Prod.snd).flatten)
      (fun s hs hs2 => hdisj hs hs2)]
    push_cast
    ring

/-- Counting is invariant under path lists with the same members. -/
theorem countDLs_congr (log : List LogRow) (startT endT : Int)
    (A B : List String) (h : ∀ s, s ∈ A ↔ s ∈ B) :
    countDLs log startT endT A = countDLs log startT endT B := by
  unfold countDLs
  congr 1
  apply List.countP_congr
  intro r _
  rw [decide_eq_decide.mpr (h r.request)]

/-- The total-query path list and the union of the per-artifact path lists
have the same members. -/
theorem total_paths_eq_catalog_union :
    ∀ s : String, s ∈ totalDLRequestPaths
      ↔ s ∈ ((downloadCatalog.map Prod.snd).flatten) := by
  have h1 : ∀ s ∈ totalDLRequestPaths,
      s ∈ ((downloadCatalog.map Prod.snd).flatten) := by decide
  have h2 : ∀ s ∈ ((downloadCatalog.map Prod.snd).flatten),
      s ∈ totalDLRequestPaths := by decide
  exact fun s => ⟨fun h => h1 s h, fun h => h2 s h⟩

/-- C5: for every log store and window, the total downloads value returned
by `getDownloads` equals the sum of the per-artifact counts of the map it
returns: the 41 paths of the total query are exactly the disjoint union of
the per-artifact path lists. -/
theorem c5_total_eq_sum (log : List LogRow) (startT endT : Int) :
    (getDownloads log startT endT).1
      = ((getDownloads log startT endT).2.map Prod.snd).sum := by
  show countDLs log startT endT totalDLRequestPaths
      = ((downloadCatalog.map
            (fun e => (e.1, countDLs log startT endT e.2))).map Prod.snd).sum
  rw [List.map_map]
  have hmm : (downloadCatalog.map
      (Prod.snd ∘ fun e => (e.1, countDLs log startT endT e.2)))
      = downloadCatalog.map (fun e => countDLs log startT endT e.2) := rfl
  rw [hmm, sum_countDLs log startT endT downloadCatalog (by decide),
    countDLs_congr log startT endT totalDLRequestPaths
      ((downloadCatalog.map Prod.snd).flatten) total_paths_eq_catalog_union]

/-- C10: for every log store and window, the per-artifact map returned by
`getDownloads` has exactly the artifact ids 1 through 40 as its keys (in
insertion order) and every count in it is non-negative. -/
theorem c10_fixed_key_set (log : List LogRow) (startT endT : Int) :
    (getDownloads log startT endT).2.map Prod.fst
        = (List.range 40).map (fun i => (i : Int) + 1) ∧
    ∀ p ∈ (getDownloads log startT endT).2, 0 ≤ p.2 := by
  constructor
  · show (downloadCatalog.map
        (fun e => (e.1, countDLs log startT endT e.2))).map Prod.fst = _
    rw [List.map_map]
    have hmm : (downloadCatalog.map
        (Prod.fst ∘ fun e => (e.1, countDLs log startT endT e.2)))
        = downloadCatalog.map Prod.fst := rfl
    rw [hmm]
    decide
  · intro p hp
    rcases List.mem_map.mp hp with ⟨e, _, rfl⟩
    exact Int.natCast_nonneg _

/-- Witness for C10: the artifact id 1 entry of an empty-log window is
present with a non-negative count. -/
theorem c10_fixed_key_set_witness : 0 ≤ (((1 : Int), (0 : Int))).2 :=
  (c10_fixed_key_set [] 0 1).2 ((1 : Int), (0 : Int)) (by decide)

/-- The 65th monthly bucket start from the 2018-08-01 epoch is 2024-01-01 (65 successive AddDate(0,1,0) steps). -/
theorem monthlyStart65 : monthlyStart 65 = ⟨2024, 1, 1⟩ := by
  have s0 : monthlyStart 0 = (⟨2018, 8, 1⟩ : GoDate) := rfl
  have h1 : monthlyStart 1 = goAddDate (monthlyStart 0) 0 1 0 := rfl
  have s1 : monthlyStart 1 = (⟨2018, 9, 1⟩ : GoDate) := by rw [h1, s0]; decide
  have h2 : monthlyStart 2 = goAddDate (monthlyStart 1) 0 1 0 := rfl
  have s2 : monthlyStart 2 = (⟨2018, 10, 1⟩ : GoDate) := by rw [h2, s1]; decide
  have h3 : monthlyStart 3 = goAddDate (monthlyStart 2) 0 1 0 := rfl
  have s3 : monthlyStart 3 = (⟨2018, 11, 1⟩ : GoDate) := by rw [h3, s2]; decide
  have h4 : monthlyStart 4 = goAddDate (monthlyStart 3) 0 1 0 := rfl
  have s4 : monthlyStart 4 = (⟨2018, 12, 1⟩ : GoDate) := by rw [h4, s3]; decide
  have h5 : monthlyStart 5 = goAddDate (monthlyStart 4) 0 1 0 := rfl
  have s5 : monthlyStart 5 = (⟨2019, 1, 1⟩ : GoDate) := by rw [h5, s4]; decide
  have h6 : monthlyStart 6 = goAddDate (monthlyStart 5) 0 1 0 := rfl
  have s6 : monthlyStart 6 = (⟨2019, 2, 1⟩ : GoDate) := by rw [h6, s5]; decide
  have h7 : monthlyStart 7 = goAddDate (monthlyStart 6) 0 1 0 := rfl
  have s7 : monthlyStart 7 = (⟨2019, 3, 1⟩ : GoDate) := by rw [h7, s6]; decide
  have h8 : monthlyStart 8 = goAddDate (monthlyStart 7) 0 1 0 := rfl
  have s8 : monthlyStart 8 = (⟨2019, 4, 1⟩ : GoDate) := by rw [h8, s7]; decide
  have h9 : monthlyStart 9 = goAddDate (monthlyStart 8) 0 1 0 := rfl
  have s9 : monthlyStart 9 = (⟨2019, 5, 1⟩ : GoDate) := by rw [h9, s8]; decide
  have h10 : monthlyStart 10 = goAddDate (monthlyStart 9) 0 1 0 := rfl
  have s10 : monthlyStart 10 = (⟨2019, 6, 1⟩ : GoDate) := by rw [h10, s9]; decide
  have h11 : monthlyStart 11 = goAddDate (monthlyStart 10) 0 1 0 := rfl
  have s11 : monthlyStart 11 = (⟨2019, 7, 1⟩ : GoDate) := by rw [h11, s10]; decide
  have h12 : monthlyStart 12 = goAddDate (monthlyStart 11) 0 1 0 := rfl
  have s12 : monthlyStart 12 = (⟨2019, 8, 1⟩ : GoDate) := by rw [h12, s11]; decide
  have h13 : monthlyStart 13 = goAddDate (monthlyStart 12) 0 1 0 := rfl
  have s13 : monthlyStart 13 = (⟨2019, 9, 1⟩ : GoDate) := by rw [h13, s12]; decide
  have h14 : monthlyStart 14 = goAddDate (monthlyStart 13) 0 1 0 := rfl
  have s14 : monthlyStart 14 = (⟨2019, 10, 1⟩ : GoDate) := by rw [h14, s13]; decide
  have h15 : monthlyStart 15 = goAddDate (monthlyStart 14) 0 1 0 := rfl
  have s15 : monthlyStart 15 = (⟨2019, 11, 1⟩ : GoDate) := by rw [h15, s14]; decide
  have h16 : monthlyStart 16 = goAddDate (monthlyStart 15) 0 1 0 := rfl
  have s16 : monthlyStart 16 = (⟨2019, 12, 1⟩ : GoDate) := by rw [h16, s15]; decide
  have h17 : monthlyStart 17 = goAddDate (monthlyStart 16) 0 1 0 := rfl
  have s17 : monthlyStart 17 = (⟨2020, 1, 1⟩ : GoDate) := by rw [h17, s16]; decide
  have h18 : monthlyStart 18 = goAddDate (monthlyStart 17) 0 1 0 := rfl
  have s18 : monthlyStart 18 = (⟨2020, 2, 1⟩ : GoDate) := by rw [h18, s17]; decide
  have h19 : monthlyStart 19 = goAddDate (monthlyStart 18) 0 1 0 := rfl
  have s19 : monthlyStart 19 = (⟨2020, 3, 1⟩ : GoDate) := by rw [h19, s18]; decide
  have h20 : monthlyStart 20 = goAddDate (monthlyStart 19) 0 1 0 := rfl
  have s20 : monthlyStart 20 = (⟨2020, 4, 1⟩ : GoDate) := by rw [h20, s19]; decide
  have h21 : monthlyStart 21 = goAddDate (monthlyStart 20) 0 1 0 := rfl
  have s21 : monthlyStart 21 = (⟨2020, 5, 1⟩ : GoDate) := by rw [h21, s20]; decide
  have h22 : monthlyStart 22 = goAddDate (monthlyStart 21) 0 1 0 := rfl
  have s22 : monthlyStart 22 = (⟨2020, 6, 1⟩ : GoDate) := by rw [h22, s21]; decide
  have h23 : monthlyStart 23 = goAddDate (monthlyStart 22) 0 1 0 := rfl
  have s23 : monthlyStart 23 = (⟨2020, 7, 1⟩ : GoDate) := by rw [h23, s22]; decide
  have h24 : monthlyStart 24 = goAddDate (monthlyStart 23) 0 1 0 := rfl
  have s24 : monthlyStart 24 = (⟨2020, 8, 1⟩ : GoDate) := by rw [h24, s23]; decide
  have h25 : monthlyStart 25 = goAddDate (monthlyStart 24) 0 1 0 := rfl
  have s25 : monthlyStart 25 = (⟨2020, 9, 1⟩ : GoDate) := by rw [h25, s24]; decide
  have h26 : monthlyStart 26 = goAddDate (monthlyStart 25) 0 1 0 := rfl
  have s26 : monthlyStart 26 = (⟨2020, 10, 1⟩ : GoDate) := by rw [h26, s25]; decide
  have h27 : monthlyStart 27 = goAddDate (monthlyStart 26) 0 1 0 := rfl
  have s27 : monthlyStart 27 = (⟨2020, 11, 1⟩ : GoDate) := by rw [h27, s26]; decide
  have h28 : monthlyStart 28 = goAddDate (monthlyStart 27) 0 1 0 := rfl
  have s28 : monthlyStart 28 = (⟨2020, 12, 1⟩ : GoDate) := by rw [h28, s27]; decide
  have h29 : monthlyStart 29 = goAddDate (monthlyStart 28) 0 1 0 := rfl
  have s29 : monthlyStart 29 = (⟨2021, 1, 1⟩ : GoDate) := by rw [h29, s28]; decide
  have h30 : monthlyStart 30 = goAddDate (monthlyStart 29) 0 1 0 := rfl
  have s30 : monthlyStart 30 = (⟨2021, 2, 1⟩ : GoDate) := by rw [h30, s29]; decide
  have h31 : monthlyStart 31 = goAddDate (monthlyStart 30) 0 1 0 := rfl
  have s31 : monthlyStart 31 = (⟨2021, 3, 1⟩ : GoDate) := by rw [h31, s30]; decide
  have h32 : monthlyStart 32 = goAddDate (monthlyStart 31) 0 1 0 := rfl
  have s32 : monthlyStart 32 = (⟨2021, 4, 1⟩ : GoDate) := by rw [h32, s31]; decide
  have h33 : monthlyStart 33 = goAddDate (monthlyStart 32) 0 1 0 := rfl
  have s33 : monthlyStart 33 = (⟨2021, 5, 1⟩ : GoDate) := by rw [h33, s32]; decide
  have h34 : monthlyStart 34 = goAddDate (monthlyStart 33) 0 1 0 := rfl
  have s34 : monthlyStart 34 = (⟨2021, 6, 1⟩ : GoDate) := by rw [h34, s33]; decide
  have h35 : monthlyStart 35 = goAddDate (monthlyStart 34) 0 1 0 := rfl
  have s35 : monthlyStart 35 = (⟨2021, 7, 1⟩ : GoDate) := by rw [h35, s34]; decide
  have h36 : monthlyStart 36 = goAddDate (monthlyStart 35) 0 1 0 := rfl
  have s36 : monthlyStart 36 = (⟨2021, 8, 1⟩ : GoDate) := by rw [h36, s35]; decide
  have h37 : monthlyStart 37 = goAddDate (monthlyStart 36) 0 1 0 := rfl
  have s37 : monthlyStart 37 = (⟨2021, 9, 1⟩ : GoDate) := by rw [h37, s36]; decide
  have h38 : monthlyStart 38 = goAddDate (monthlyStart 37) 0 1 0 := rfl
  have s38 : monthlyStart 38 = (⟨2021, 10, 1⟩ : GoDate) := by rw [h38, s37]; decide
  have h39 : monthlyStart 39 = goAddDate (monthlyStart 38) 0 1 0 := rfl
  have s39 : monthlyStart 39 = (⟨2021, 11, 1⟩ : GoDate) := by rw [h39, s38]; decide
  have h40 : monthlyStart 40 = goAddDate (monthlyStart 39) 0 1 0 := rfl
  have s40 : monthlyStart 40 = (⟨2021, 12, 1⟩ : GoDate) := by rw [h40, s39]; decide
  have h41 : monthlyStart 41 = goAddDate (monthlyStart 40) 0 1 0 := rfl
  have s41 : monthlyStart 41 = (⟨2022, 1, 1⟩ : GoDate) := by rw [h41, s40]; decide
  have h42 : monthlyStart 42 = goAddDate (monthlyStart 41) 0 1 0 := rfl
  have s42 : monthlyStart 42 = (⟨2022, 2, 1⟩ : GoDate) := by rw [h42, s41]; decide
  have h43 : monthlyStart 43 = goAddDate (monthlyStart 42) 0 1 0 := rfl
  have s43 : monthlyStart 43 = (⟨2022, 3, 1⟩ : GoDate) := by rw [h43, s42]; decide
  have h44 : monthlyStart 44 = goAddDate (monthlyStart 43) 0 1 0 := rfl
  have s44 : monthlyStart 44 = (⟨2022, 4, 1⟩ : GoDate) := by rw [h44, s43]; decide
  have h45 : monthlyStart 45 = goAddDate (monthlyStart 44) 0 1 0 := rfl
  have s45 : monthlyStart 45 = (⟨2022, 5, 1⟩ : GoDate) := by rw [h45, s44]; decide
  have h46 : monthlyStart 46 = goAddDate (monthlyStart 45) 0 1 0 := rfl
  have s46 : monthlyStart 46 = (⟨2022, 6, 1⟩ : GoDate) := by rw [h46, s45]; decide
  have h47 : monthlyStart 47 = goAddDate (monthlyStart 46) 0 1 0 := rfl
  have s47 : monthlyStart 47 = (⟨2022, 7, 1⟩ : GoDate) := by rw [h47, s46]; decide
  have h48 : monthlyStart 48 = goAddDate (monthlyStart 47) 0 1 0 := rfl
  have s48 : monthlyStart 48 = (⟨2022, 8, 1⟩ : GoDate) := by rw [h48, s47]; decide
  have h49 : monthlyStart 49 = goAddDate (monthlyStart 48) 0 1 0 := rfl
  have s49 : monthlyStart 49 = (⟨2022, 9, 1⟩ : GoDate) := by rw [h49, s48]; decide
  have h50 : monthlyStart 50 = goAddDate (monthlyStart 49) 0 1 0 := rfl
  have s50 : monthlyStart 50 = (⟨2022, 10, 1⟩ : GoDate) := by rw [h50, s49]; decide
  have h51 : monthlyStart 51 = goAddDate (monthlyStart 50) 0 1 0 := rfl
  have s51 : monthlyStart 51 = (⟨2022, 11, 1⟩ : GoDate) := by rw [h51, s50]; decide
  have h52 : monthlyStart 52 = goAddDate (monthlyStart 51) 0 1 0 := rfl
  have s52 : monthlyStart 52 = (⟨2022, 12, 1⟩ : GoDate) := by rw [h52, s51]; decide
  have h53 : monthlyStart 53 = goAddDate (monthlyStart 52) 0 1 0 := rfl
  have s53 : monthlyStart 53 = (⟨2023, 1, 1⟩ : GoDate) := by rw [h53, s52]; decide
  have h54 : monthlyStart 54 = goAddDate (monthlyStart 53) 0 1 0 := rfl
  have s54 : monthlyStart 54 = (⟨2023, 2, 1⟩ : GoDate) := by rw [h54, s53]; decide
  have h55 : monthlyStart 55 = goAddDate (monthlyStart 54) 0 1 0 := rfl
  have s55 : monthlyStart 55 = (⟨2023, 3, 1⟩ : GoDate) := by rw [h55, s54]; decide
  have h56 : monthlyStart 56 = goAddDate (monthlyStart 55) 0 1 0 := rfl
  have s56 : monthlyStart 56 = (⟨2023, 4, 1⟩ : GoDate) := by rw [h56, s55]; decide
  have h57 : monthlyStart 57 = goAddDate (monthlyStart 56) 0 1 0 := rfl
  have s57 : monthlyStart 57 = (⟨2023, 5, 1⟩ : GoDate) := by rw [h57, s56]; decide
  have h58 : monthlyStart 58 = goAddDate (monthlyStart 57) 0 1 0 := rfl
  have s58 : monthlyStart 58 = (⟨2023, 6, 1⟩ : GoDate) := by rw [h58, s57]; decide
  have h59 : monthlyStart 59 = goAddDate (monthlyStart 58) 0 1 0 := rfl
  have s59 : monthlyStart 59 = (⟨2023, 7, 1⟩ : GoDate) := by rw [h59, s58]; decide
  have h60 : monthlyStart 60 = goAddDate (monthlyStart 59) 0 1 0 := rfl
  have s60 : monthlyStart 60 = (⟨2023, 8, 1⟩ : GoDate) := by rw [h60, s59]; decide
  have h61 : monthlyStart 61 = goAddDate (monthlyStart 60) 0 1 0 := rfl
  have s61 : monthlyStart 61 = (⟨2023, 9, 1⟩ : GoDate) := by rw [h61, s60]; decide
  have h62 : monthlyStart 62 = goAddDate (monthlyStart 61) 0 1 0 := rfl
  have s62 : monthlyStart 62 = (⟨2023, 10, 1⟩ : GoDate) := by rw [h62, s61]; decide
  have h63 : monthlyStart 63 = goAddDate (monthlyStart 62) 0 1 0 := rfl
  have s63 : monthlyStart 63 = (⟨2023, 11, 1⟩ : GoDate) := by rw [h63, s62]; decide
  have h64 : monthlyStart 64 = goAddDate (monthlyStart 63) 0 1 0 := rfl
  have s64 : monthlyStart 64 = (⟨2023, 12, 1⟩ : GoDate) := by rw [h64, s63]; decide
  have h65 : monthlyStart 65 = goAddDate (monthlyStart 64) 0 1 0 := rfl
  have s65 : monthlyStart 65 = (⟨2024, 1, 1⟩ : GoDate) := by rw [h65, s64]; decide
  exact s65

/-- The 66th monthly bucket start is 2024-02-01. -/
theorem monthlyStart66 : monthlyStart 66 = ⟨2024, 2, 1⟩ := by
  have h : monthlyStart 66 = goAddDate (monthlyStart 65) 0 1 0 := rfl
  rw [h, monthlyStart65]; decide

/-- C8: every monthly bucket ends at its start advanced by
`AddDate(0, 1, 0)`; on every first-of-month start between 2018 and 2100
that advance lands exactly on the first of the next calendar month and the
bucket spans exactly that calendar month's length; in the actual bucket
sequence from the 2018-08-01 epoch, bucket 65 is
(2024-01-01, 2024-02-01) spanning 31 days and bucket 66 is
(2024-02-01, 2024-03-01) spanning 29 days (leap year), so bucket length is
calendar-sensitive, not a fixed day count. -/
theorem c8_month_buckets :
    (∀ k : Nat, (monthlyBucket k).2 = goAddDate (monthlyBucket k).1 0 1 0) ∧
    (∀ yn : Nat, yn < 83 → ∀ mn : Nat, mn < 12 →
      goAddDate ⟨2018 + (yn : Int), (mn : Int) + 1, 1⟩ 0 1 0
          = firstOfNextMonth ⟨2018 + (yn : Int), (mn : Int) + 1, 1⟩ ∧
      spanDays (⟨2018 + (yn : Int), (mn : Int) + 1, 1⟩,
          goAddDate ⟨2018 + (yn : Int), (mn : Int) + 1, 1⟩ 0 1 0)
          = daysInMonth (2018 + (yn : Int)) ((mn : Int) + 1)) ∧
    monthlyBucket 65 = (⟨2024, 1, 1⟩, ⟨2024, 2, 1⟩) ∧
    spanDays (monthlyBucket 65) = 31 ∧
    monthlyBucket 66 = (⟨2024, 2, 1⟩, ⟨2024, 3, 1⟩) ∧
    spanDays (monthlyBucket 66) = 29 ∧
    spanDays (monthlyBucket 65) ≠ spanDays (monthlyBucket 66) := by
  have hb65 : monthlyBucket 65 = (⟨2024, 1, 1⟩, ⟨2024, 2, 1⟩) := by
    show (monthlyStart 65, goAddDate (monthlyStart 65) 0 1 0) = _
    rw [monthlyStart65]; decide
  have hb66 : monthlyBucket 66 = (⟨2024, 2, 1⟩, ⟨2024, 3, 1⟩) := by
    show (monthlyStart 66, goAddDate (monthlyStart 66) 0 1 0) = _
    rw [monthlyStart66]; decide
  refine ⟨fun k => rfl, by decide, hb65, ?_, hb66, ?_, ?_⟩
  · rw [hb65]; decide
  · rw [hb66]; decide
  · rw [hb65, hb66]; decide

/-! ## User-stats aggregation: C7, C2, C6 -/

/-- A row with no usable IP field anywhere in the result set makes the row
loop abort with an error. -/
theorem ipLoop_error_of_bad {H : Type} [DecidableEq H] (hash : String → H)
    (rows : List LogRow) (uniq : List (H × Nat))
    (per : List (String × List (H × Nat)))
    (hbad : ∃ r ∈ rows, rowIPField r = none) :
    ∃ msg, ipLoop hash rows uniq per = .error msg := by
  induction rows generalizing uniq per with
  | nil =>
    obtain ⟨r, hr, _⟩ := hbad
    exact absurd hr (List.not_mem_nil r)
  | cons r rest ih =>
    obtain ⟨r0, hr0, hnone⟩ := hbad
    cases hf : rowIPField r with
    | none =>
      exact ⟨"no non-NULL client IP field for one of the rows",
        by simp [ipLoop, hf]⟩
    | some s =>
      rcases List.mem_cons.mp hr0 with rfl | hmem
      · rw [hf] at hnone
        cases hnone
      · obtain ⟨msg, hmsg⟩ := ih (bump uniq (hash s))
          (bumpUA per (uaOf r) (hash s)) ⟨r0, hmem, hnone⟩
        exact ⟨msg, by simp [ipLoop, hf, hmsg]⟩

/-- The fall-through of the identity chain is exactly the all-three-fields
null-or-empty situation. -/
theorem rowIPField_eq_none_iff (r : LogRow) :
    rowIPField r = none
      ↔ usableText r.client_ip_strange = false ∧
        usableText r.client_ipv6 = false ∧
        usableText r.client_ipv4 = false := by
  unfold rowIPField
  by_cases h1 : usableText r.client_ip_strange
  · simp only [h1, if_true]
    cases hv : r.client_ip_strange with
    | none => rw [hv] at h1; simp [usableText] at h1
    | some s => simp [hv, h1]
  · by_cases h2 : usableText r.client_ipv6
    · simp only [h1, h2, if_false, if_true, Bool.not_eq_true]
      cases hv : r.client_ipv6 with
      | none => rw [hv] at h2; simp [usableText] at h2
      | some s => simp [hv, h2]
    · by_cases h3 : usableText r.client_ipv4
      · simp only [h1, h2, h3, if_false, if_true, Bool.not_eq_true]
        cases hv : r.client_ipv4 with
        | none => rw [hv] at h3; simp [usableText] at h3
        | some s => simp [hv, h3]
      · simp [h1, h2, h3, Bool.not_eq_true]

/-- C7: when some row selected by the window has all three IP fields NULL
or empty, the aggregation aborts the run with an error — `getIPs` returns
no counts, and the bucket step writes nothing (the save never runs). -/
theorem c7_integrity_fatal {H : Type} [DecidableEq H] (hash : String → H)
    (refT : RefTable) (t : Table UsersKey) (log : List LogRow)
    (startT endT : Int)
    (hbad : ∃ r ∈ log, selectedIPRow startT endT r = true ∧
      usableText r.client_ip_strange = false ∧
      usableText r.client_ipv6 = false ∧
      usableText r.client_ipv4 = false) :
    (∃ msg, getIPs hash log startT endT = .error msg) ∧
    (∃ msg, dailyUsersStep hash refT t log startT endT = .error msg) := by
  obtain ⟨r, hr, hsel, hnul⟩ := hbad
  have hmem : r ∈ log.filter (selectedIPRow startT endT) :=
    List.mem_filter.mpr ⟨hr, hsel⟩
  obtain ⟨msg, hmsg⟩ := ipLoop_error_of_bad hash
    (log.filter (selectedIPRow startT endT)) [] []
    ⟨r, hmem, (rowIPField_eq_none_iff r).mpr hnul⟩
  have hget : getIPs hash log startT endT = .error msg := by
    simp [getIPs, hmsg]
  exact ⟨⟨msg, hget⟩, ⟨msg, by simp [dailyUsersStep, hget]⟩⟩

/-- Witness for C7: a window containing `rowAllNull` aborts and saves
nothing. -/
theorem c7_integrity_fatal_witness :
    (∃ msg, getIPs testHash [rowAllNull] 0 10 = .error msg) ∧
    (∃ msg, dailyUsersStep testHash seedRefTable [] [rowAllNull] 0 10
      = .error msg) :=
  c7_integrity_fatal testHash seedRefTable [] [rowAllNull] 0 10
    ⟨rowAllNull, by decide, by decide, by decide, by decide, by decide⟩

/-- C2 (amended): the selection of `getIPs` is exactly the marker path,
family-marker user-agent without the crawler marker, status 200, and the
OPEN interval `(start, end)` on the request time — both comparisons are
strict, so a row at exactly `start` is excluded (the frozen claim's
half-open `[start, end)` reading fails, `c2_counterexample`); and `getIPs`
depends on the log only through the rows this predicate selects. -/
theorem c2_window_bounds :
    (∀ (startT endT : Int) (r : LogRow),
      selectedIPRow startT endT r = specSelectedOpenC2 startT endT r) ∧
    (∀ (H : Type) (inst : DecidableEq H) (hash : String → H)
        (log : List LogRow) (startT endT : Int),
      getIPs hash log startT endT
        = getIPs hash (log.filter (selectedIPRow startT endT)) startT endT) := by
  constructor
  · intro startT endT r
    rfl
  · intro H inst hash log startT endT
    have hff : (log.filter (selectedIPRow startT endT)).filter
        (selectedIPRow startT endT) = log.filter (selectedIPRow startT endT) := by
      rw [List.filter_filter]
      exact List.filter_congr (fun r _ => Bool.and_self _)
    simp only [getIPs, hff]

/-- Counterexample to C2 as frozen: `rowAtStart` sits exactly at the window
start and meets every other condition (it qualifies under the claim's
half-open reading), yet the query excludes it: `getIPs` sees no row. -/
theorem c2_counterexample :
    specSelectedHalfOpenC2 0 86400 rowAtStart = true ∧
    selectedIPRow 0 86400 rowAtStart = false ∧
    getIPs testHash [rowAtStart] 0 86400 = .ok (0, []) := by
  refine ⟨by decide, by decide, by rfl⟩

/-- C6 (amended): the client identity is derived from the highest-priority
non-NULL and NON-EMPTY IP-like field, in the order strange, IPv6, IPv4; in
particular whenever the strange field is usable the identity comes from
it, never from IPv4.  (The frozen claim's non-NULL-only reading fails on
empty strings, `c6_counterexample`.) -/
theorem c6_identity_priority :
    (∀ r : LogRow, rowIPField r = amendedIdentityFieldC6 r) ∧
    (∀ r : LogRow, usableText r.client_ip_strange = true →
      rowIPField r = r.client_ip_strange) := by
  constructor
  · intro r
    unfold rowIPField amendedIdentityFieldC6 amendedIdentityV6 amendedIdentityV4
    cases hst : r.client_ip_strange with
    | some s =>
      by_cases hs : s = "" <;>
        cases h6 : r.client_ipv6 with
      | some s6 =>
        by_cases hs6 : s6 = "" <;>
          cases h4 : r.client_ipv4 with
        | some s4 =>
          by_cases hs4 : s4 = "" <;>
            simp [usableText, hst, h6, h4, hs, hs6, hs4]
        | none => simp [usableText, hst, h6, h4, hs, hs6]
      | none =>
        cases h4 : r.client_ipv4 with
        | some s4 =>
          by_cases hs4 : s4 = "" <;>
            simp [usableText, hst, h6, h4, hs, hs4]
        | none => simp [usableText, hst, h6, h4, hs]
    | none =>
      cases h6 : r.client_ipv6 with
      | some s6 =>
        by_cases hs6 : s6 = "" <;>
          cases h4 : r.client_ipv4 with
        | some s4 =>
          by_cases hs4 : s4 = "" <;>
            simp [usableText, hst, h6, h4, hs6, hs4]
        | none => simp [usableText, hst, h6, h4, hs6]
      | none =>
        cases h4 : r.client_ipv4 with
        | some s4 =>
          by_cases hs4 : s4 = "" <;>
            simp [usableText, hst, h6, h4, hs4]
        | none => simp [usableText, hst, h6, h4]
  · intro r h
    unfold rowIPField
    rw [if_pos h]

/-- Witness for C6 (amended): a row with a populated strange field and a
populated IPv4 field takes its identity from the strange field. -/
theorem c6_identity_priority_witness :
    rowIPField rowStrange = rowStrange.client_ip_strange :=
  c6_identity_priority.2 rowStrange (by decide)

/-- Counterexample to C6 as frozen: `rowEmptyStrange` has a non-NULL (but
empty) strange field and a populated IPv4 field; the claim derives the
identity from the strange field, the code derives it from IPv4. -/
theorem c6_counterexample :
    rowEmptyStrange.client_ip_strange = some "" ∧
    specIdentityFieldC6 rowEmptyStrange = some "" ∧
    rowIPField rowEmptyStrange = some "1.2.3.4" ∧
    rowIPField rowEmptyStrange ≠ specIdentityFieldC6 rowEmptyStrange := by
  refine ⟨rfl, rfl, by decide, by decide⟩

/-! ## Set semantics of the unique-client counts: C4 -/

theorem any_fst_eq_iff {α β : Type} [DecidableEq α] (l : List (α × β)) (a : α) :
    l.any (fun e => e.1 = a) = true ↔ a ∈ l.map Prod.fst := by
  simp [List.any_eq_true, List.mem_map]

/-- Bumping a counter map adds its key when absent and leaves the key list
unchanged when present. -/
theorem bump_keys {H : Type} [DecidableEq H] (m : List (H × Nat)) (k : H) :
    (bump m k).map Prod.fst
      = if k ∈ m.map Prod.fst then m.map Prod.fst
        else m.map Prod.fst ++ [k] := by
  unfold bump
  by_cases h : m.any (fun e => e.1 = k)
  · rw [if_pos h, if_pos ((any_fst_eq_iff m k).mp h), List.map_map]
    apply List.map_congr_left
    intro e _
    by_cases he : e.1 = k <;> simp [he]
  · rw [if_neg h, if_neg (fun hm => h ((any_fst_eq_iff m k).mpr hm))]
    simp

/-- The key list of a bump fold stays duplicate-free and accumulates
exactly the keys seen. -/
theorem bump_fold_keys {H : Type} [DecidableEq H] (hs : List H)
    (m : List (H × Nat)) (hnd : (m.map Prod.fst).Nodup) :
    ((hs.foldl bump m).map Prod.fst).Nodup ∧
    ((hs.foldl bump m).map Prod.fst).toFinset
      = (m.map Prod.fst).toFinset ∪ hs.toFinset := by
  induction hs generalizing m with
  | nil => simpa using hnd
  | cons k rest ih =>
    rw [List.foldl_cons]
    have hb := bump_keys m k
    by_cases hk : k ∈ m.map Prod.fst
    · rw [if_pos hk] at hb
      have hnd2 : ((bump m k).map Prod.fst).Nodup := hb ▸ hnd
      obtain ⟨h1, h2⟩ := ih (bump m k) hnd2
      refine ⟨h1, ?_⟩
      rw [h2, hb]
      ext x
      simp only [Finset.mem_union, List.mem_toFinset, List.mem_cons]
      constructor
      · rintro (h | h)
        · exact Or.inl h
        · exact Or.inr (Or.inr h)
      · rintro (h | h | h)
        · exact Or.inl h
        · exact Or.inl (h ▸ hk)
        · exact Or.inr h
    · rw [if_neg hk] at hb
      have hnd2 : ((bump m k).map Prod.fst).Nodup := by
        rw [hb]
        simp [List.nodup_append, hnd, hk]
      obtain ⟨h1, h2⟩ := ih (bump m k) hnd2
      refine ⟨h1, ?_⟩
      rw [h2, hb]
      ext x
      simp only [Finset.mem_union, List.mem_toFinset, List.mem_append,
        List.mem_singleton, List.mem_cons]
      tauto

/-- The size of a counter map built by bumping is the number of distinct
keys bumped. -/
theorem bump_fold_length {H : Type} [DecidableEq H] (hs : List H) :
    (hs.foldl bump ([] : List (H × Nat))).length = hs.toFinset.card := by
  obtain ⟨h1, h2⟩ := bump_fold_keys hs ([] : List (H × Nat)) (by simp)
  have hlen : (hs.foldl bump ([] : List (H × Nat))).length
      = ((hs.foldl bump ([] : List (H × Nat))).map Prod.fst).length := by
    rw [List.length_map]
  rw [hlen, ← List.toFinset_card_of_nodup h1, h2]
  simp

/-- When every row has a usable IP field, the row loop succeeds and its
result is the pair of accumulator folds. -/
theorem ipLoop_ok_all_good {H : Type} [DecidableEq H] (hash : String → H)
    (rows : List LogRow) (uniq : List (H × Nat))
    (per : List (String × List (H × Nat)))
    (hgood : ∀ r ∈ rows, (rowIPField r).isSome = true) :
    ipLoop hash rows uniq per
      = .ok ((rowHashes hash rows).foldl bump uniq,
             rows.foldl (uaStep hash) per) := by
  induction rows generalizing uniq per with
  | nil => simp [ipLoop, rowHashes]
  | cons r rest ih =>
    obtain ⟨s, hs⟩ :=
      Option.isSome_iff_exists.mp (hgood r (List.mem_cons_self r rest))
    have hrh : rowHashes hash (r :: rest) = hash s :: rowHashes hash rest := by
      simp [rowHashes, hs]
    have hstep : uaStep hash per r = bumpUA per (uaOf r) (hash s) := by
      simp [uaStep, hs]
    rw [show ipLoop hash (r :: rest) uniq per
        = ipLoop hash rest (bump uniq (hash s)) (bumpUA per (uaOf r) (hash s)) by
      simp [ipLoop, hs]]
    rw [ih _ _ (fun q hq => hgood q (List.mem_cons_of_mem r hq)), hrh,
      List.foldl_cons, List.foldl_cons, hstep]

/-- Invariant of the per-user-agent accumulation: its keys are exactly the
user-agent strings seen, and each entry holds the bump fold of the
identity keys of the rows carrying its user-agent. -/
theorem uaFold_inv {H : Type} [DecidableEq H] (hash : String → H)
    (rows : List LogRow) (P : List LogRow)
    (per : List (String × List (H × Nat)))
    (hgood : ∀ r ∈ rows, (rowIPField r).isSome = true)
    (hkeys : ∀ ua, ua ∈ per.map Prod.fst ↔ ua ∈ P.map uaOf)
    (hentries : ∀ e ∈ per,
      e.2 = (rowHashes hash (P.filter (fun q => uaOf q = e.1))).foldl bump []) :
    (∀ ua, ua ∈ (rows.foldl (uaStep hash) per).map Prod.fst
        ↔ ua ∈ (P ++ rows).map uaOf) ∧
    (∀ e ∈ rows.foldl (uaStep hash) per,
      e.2 = (rowHashes hash
        ((P ++ rows).filter (fun q => uaOf q = e.1))).foldl bump []) := by
  induction rows generalizing P per with
  | nil =>
    simp only [List.foldl_nil, List.append_nil]
    exact ⟨hkeys, hentries⟩
  | cons r rest ih =>
    obtain ⟨s, hs⟩ :=
      Option.isSome_iff_exists.mp (hgood r (List.mem_cons_self r rest))
    have hh0 : hash ((rowIPField r).getD "") = hash s := by rw [hs]; rfl
    have hgood2 : ∀ q ∈ rest, (rowIPField q).isSome = true :=
      fun q hq => hgood q (List.mem_cons_of_mem r hq)
    have happ : P ++ r :: rest = (P ++ [r]) ++ rest := by simp
    rw [List.foldl_cons, happ]
    by_cases hpres : per.any (fun e => e.1 = uaOf r)
    · have hper1 : uaStep hash per r
          = per.map (fun e =>
              if e.1 = uaOf r then (e.1, bump e.2 (hash s)) else e) := by
        rw [uaStep, hh0, bumpUA, if_pos hpres]
      have hkmap : (uaStep hash per r).map Prod.fst = per.map Prod.fst := by
        rw [hper1, List.map_map]
        apply List.map_congr_left
        intro e _
        by_cases he : e.1 = uaOf r <;> simp [he]
      have hua0 : uaOf r ∈ P.map uaOf :=
        (hkeys (uaOf r)).mp ((any_fst_eq_iff per (uaOf r)).mp hpres)
      refine ih (P ++ [r]) (uaStep hash per r) hgood2 ?_ ?_
      · intro ua
        rw [hkmap, hkeys ua]
        simp only [List.map_append, List.mem_append, List.map_cons,
          List.map_nil, List.mem_singleton]
        constructor
        · exact fun h => Or.inl h
        · rintro (h | h)
          · exact h
          · exact h ▸ hua0
      · intro e2 he2
        rw [hper1] at he2
        rcases List.mem_map.mp he2 with ⟨e, he, heq⟩
        by_cases hcase : e.1 = uaOf r
        · have he2eq : e2 = (e.1, bump e.2 (hash s)) := by
            rw [← heq, if_pos hcase]
          subst he2eq
          show bump e.2 (hash s)
              = (rowHashes hash
                  ((P ++ [r]).filter (fun q => uaOf q = e.1))).foldl bump []
          rw [List.filter_append]
          have hfilr : [r].filter (fun q => uaOf q = e.1) = [r] := by
            simp [List.filter, hcase]
          rw [hfilr]
          have hsplit : rowHashes hash (P.filter (fun q => uaOf q = e.1) ++ [r])
              = rowHashes hash (P.filter (fun q => uaOf q = e.1)) ++ [hash s] := by
            simp [rowHashes, hs]
          rw [hsplit, List.foldl_append, List.foldl_cons, List.foldl_nil]
          exact congrArg (fun m => bump m (hash s)) (hentries e he)
        · have he2eq : e2 = e := by rw [← heq, if_neg hcase]
          rw [he2eq, List.filter_append]
          have hne : ¬ (uaOf r = e.1) := fun h => hcase h.symm
          have hfilr : [r].filter (fun q => uaOf q = e.1) = [] := by
            simp [List.filter, hne]
          rw [hfilr, List.append_nil]
          exact hentries e he
    · have hper1 : uaStep hash per r = per ++ [(uaOf r, bump [] (hash s))] := by
        rw [uaStep, hh0, bumpUA, if_neg hpres]
      have hua0notin : uaOf r ∉ P.map uaOf :=
        fun hm => hpres ((any_fst_eq_iff per (uaOf r)).mpr ((hkeys (uaOf r)).mpr hm))
      refine ih (P ++ [r]) (uaStep hash per r) hgood2 ?_ ?_
      · intro ua
        rw [hper1]
        simp only [List.map_append, List.mem_append, List.map_cons,
          List.map_nil, List.mem_singleton]
        constructor
        · rintro (h | h)
          · exact Or.inl ((hkeys ua).mp h)
          · exact Or.inr h
        · rintro (h | h)
          · exact Or.inl ((hkeys ua).mpr h)
          · exact Or.inr h
      · intro e2 he2
        rw [hper1] at he2
        rcases List.mem_append.mp he2 with he2p | he2new
        · have hin : e2.1 ∈ per.map Prod.fst := List.mem_map_of_mem Prod.fst he2p
          have hne : ¬ (uaOf r = e2.1) := by
            intro hcontra
            exact hpres ((any_fst_eq_iff per (uaOf r)).mpr (hcontra ▸ hin))
          rw [List.filter_append]
          have hfilr : [r].filter (fun q => uaOf q = e2.1) = [] := by
            simp [List.filter, hne]
          rw [hfilr, List.append_nil]
          exact hentries e2 he2p
        · simp only [List.mem_singleton] at he2new
          subst he2new
          show bump ([] : List (H × Nat)) (hash s)
              = (rowHashes hash
                  ((P ++ [r]).filter (fun q => uaOf q = uaOf r))).foldl bump []
          rw [List.filter_append]
          have hfP : P.filter (fun q => uaOf q = uaOf r) = [] := by
            rw [List.filter_eq_nil_iff]
            intro q hq
            simp only [decide_eq_true_eq]
            intro hcontra
            exact hua0notin (hcontra ▸ List.mem_map_of_mem uaOf hq)
          have hfr : [r].filter (fun q => uaOf q = uaOf r) = [r] := by
            simp [List.filter]
          rw [hfP, hfr]
          simp [rowHashes, hs]

/-- C4: whenever `getIPs` succeeds, its total is the number of DISTINCT
client identity keys among the selected rows, and each per-user-agent
count is the number of distinct identity keys among the selected rows
carrying that user-agent — set cardinalities, not occurrence counts, so a
client hitting the marker path twice under one version label counts once
in both places. -/
theorem c4_set_semantics {H : Type} [DecidableEq H] (hash : String → H)
    (log : List LogRow) (startT endT : Int) (total : Int)
    (perUA : List (String × Int))
    (hok : getIPs hash log startT endT = .ok (total, perUA)) :
    total = ((rowHashes hash
        (log.filter (selectedIPRow startT endT))).toFinset.card : Int) ∧
    ∀ ua c, (ua, c) ∈ perUA →
      c = ((rowHashes hash ((log.filter (selectedIPRow startT endT)).filter
            (fun q => uaOf q = ua))).toFinset.card : Int) := by
  set rows := log.filter (selectedIPRow startT endT) with hrows
  have hgood : ∀ r ∈ rows, (rowIPField r).isSome = true := by
    by_contra hcon
    push_neg at hcon
    obtain ⟨r, hr, hbadr⟩ := hcon
    have hfnone : rowIPField r = none := by
      cases hfr : rowIPField r with
      | none => rfl
      | some s => rw [hfr] at hbadr; simp at hbadr
    obtain ⟨msg, hmsg⟩ := ipLoop_error_of_bad hash rows [] [] ⟨r, hr, hfnone⟩
    have : getIPs hash log startT endT = .error msg := by
      unfold getIPs
      rw [← hrows, hmsg]
    rw [this] at hok
    cases hok
  have hloop := ipLoop_ok_all_good hash rows [] [] hgood
  have hval : getIPs hash log startT endT
      = .ok ((((rowHashes hash rows).foldl bump []).length : Int),
             (rows.foldl (uaStep hash) []).map
               (fun e => (e.1, (e.2.length : Int)))) := by
    unfold getIPs
    rw [← hrows, hloop]
  rw [hval] at hok
  simp only [Except.ok.injEq, Prod.mk.injEq] at hok
  obtain ⟨htot, hper⟩ := hok
  constructor
  · rw [← htot]
    exact congrArg Nat.cast (bump_fold_length (rowHashes hash rows))
  · intro ua c hmem
    rw [← hper] at hmem
    rcases List.mem_map.mp hmem with ⟨e, he, heq⟩
    obtain ⟨hua, hc⟩ := Prod.mk.injEq .. ▸ heq
    have hinv := uaFold_inv hash rows [] [] hgood (by simp) (by simp)
    have hentry := hinv.2 e he
    simp only [List.nil_append] at hentry
    rw [← hc, ← hua, hentry]
    exact congrArg Nat.cast
      (bump_fold_length (rowHashes hash (rows.filter (fun q => uaOf q = e.1))))

/-- Witness for C4: in the three-row scenario (client A twice under
3.12.2, client B once under 3.11.2) the 3.12.2 count is 1, not 2. -/
theorem c4_set_semantics_witness :
    (1 : Int) = ((rowHashes testHash
        (([rowA, rowA2, rowB].filter (selectedIPRow 0 86400)).filter
          (fun q => uaOf q = "sqlitebrowser 3.12.2"))).toFinset.card : Int) :=
  (c4_set_semantics testHash [rowA, rowA2, rowB] 0 86400 2
      [("sqlitebrowser 3.12.2", 1), ("sqlitebrowser 3.11.2", 1)]
      (by rfl)).2
    "sqlitebrowser 3.12.2" 1 (by decide)

/-- Witness for C8: the bounded conjunct applied at 2023-01-01. -/
theorem c8_month_buckets_witness :
    goAddDate ⟨2018 + ((5 : Nat) : Int), ((0 : Nat) : Int) + 1, 1⟩ 0 1 0
        = firstOfNextMonth ⟨2018 + ((5 : Nat) : Int), ((0 : Nat) : Int) + 1, 1⟩ ∧
    spanDays (⟨2018 + ((5 : Nat) : Int), ((0 : Nat) : Int) + 1, 1⟩,
        goAddDate ⟨2018 + ((5 : Nat) : Int), ((0 : Nat) : Int) + 1, 1⟩ 0 1 0)
        = daysInMonth (2018 + ((5 : Nat) : Int)) (((0 : Nat) : Int) + 1) :=
  c8_month_buckets.2.1 5 (by decide) 0 (by decide)

end DB4S
